import Mathlib

/-!
Verification development for the cf-branch-wrangler repository.

The JavaScript sources are shallowly embedded as Lean definitions:

* `src/lib/branch-sanitizer.js` — `sanitizeBranchName`, `getBranchSuffix`,
  `isProductionBranch`, modelled character-exactly on `List Char`
  (`String.data`).  `toLowerCase` is modelled as ASCII lowercasing
  (`jsToLower`); every character outside `[a-z0-9-]` is replaced by `-`
  before any other step, so only the ASCII case distinctions matter.
* `src/lib/provisioner.js` — the discover-or-create flows `provisionD1`,
  `provisionKV` and the finders `findD1Database`, `findR2Bucket`,
  `findKVNamespace`.  Subprocess output is a parameter of the model
  (a "world" record); regex scans are implemented as explicit character
  scanners with JavaScript's first-match semantics.
* `src/lib/cleanup.js` — `findBranchResources` over explicit listings.
* `src/lib/api-client.js` — the payload construction and failure surface
  of `patchPreviewBindings`.
* `src/lib/config.js` — `validateEnv` / `getEnv` (both the variant that
  requires four environment variables and the variant that requires only
  the API token are present in the repository; both are modelled).

JavaScript truthiness of strings (`"" `is falsy) is modelled by `truthy`;
`process.env` lookups that may be unset are `Option String`, with
`envFalsy` matching the `!process.env[v]` test.  `process.exit(1)`
terminates the Node process at once: `finally` blocks do NOT run, which
the provisioning model reflects (an `exited` outcome never performs the
`finally` cleanup that lexically follows it).
-/

namespace CFBW

/-- JavaScript string truthiness: `null`/`undefined` and `""` are falsy. -/
def truthy : Option String → Bool
  | none => false
  | some s => !s.isEmpty

/-- Character class `[a-z0-9]` of the sanitizer's regexes. -/
def lowerAlnum (c : Char) : Bool :=
  decide (97 ≤ c.toNat ∧ c.toNat ≤ 122) || decide (48 ≤ c.toNat ∧ c.toNat ≤ 57)

/-- Character class `[a-z0-9-]`: the characters `sanitizeBranchName` keeps. -/
def isAllowedChar (c : Char) : Bool :=
  lowerAlnum c || (c == '-')

/-- ASCII lowercasing, the fragment of JavaScript `toLowerCase` that can
produce characters in `[a-z0-9-]`; all other characters are replaced by
`-` in the following step regardless of how they lowercase. -/
def jsToLower (c : Char) : Char :=
  if 65 ≤ c.toNat ∧ c.toNat ≤ 90 then Char.ofNat (c.toNat + 32) else c

/-- Step `replace(/[^a-z0-9-]/g, '-')` of `sanitizeBranchName`. -/
def replaceInvalid (l : List Char) : List Char :=
  l.map fun c => if isAllowedChar c then c else '-'

/-- Step replacing every maximal run of hyphens by a single hyphen (the
`-+` global replace of the source): a hyphen is dropped exactly when the
already-collapsed suffix starts with a hyphen, so each maximal hyphen run
contributes one hyphen and every other character is kept unchanged. -/
def collapseHyphens : List Char → List Char
  | [] => []
  | c :: rest =>
    if c = '-' then
      if (collapseHyphens rest).head? = some '-' then collapseHyphens rest
      else '-' :: collapseHyphens rest
    else c :: collapseHyphens rest

/-- Step stripping leading hyphens (the `^-+` replace of the source). -/
def dropLeadingHyphens (l : List Char) : List Char :=
  l.dropWhile (· = '-')

/-- Step stripping trailing hyphens (the `-+$` replace of the source). -/
def dropTrailingHyphens (l : List Char) : List Char :=
  (l.reverse.dropWhile (· = '-')).reverse

/-- The whole `sanitizeBranchName` pipeline on the character list:
lowercase, replace invalid characters, collapse hyphen runs, strip
leading hyphens, strip trailing hyphens, truncate to 63, strip any
trailing hyphens reintroduced by the truncation. -/
def sanitizeList (l : List Char) : List Char :=
  dropTrailingHyphens
    ((dropTrailingHyphens
      (dropLeadingHyphens
        (collapseHyphens
          (replaceInvalid (l.map jsToLower))))).take 63)

/-- Embedding of `sanitizeBranchName` (src/lib/branch-sanitizer.js). -/
def sanitizeBranchName (branch : String) : String :=
  ⟨sanitizeList branch.data⟩

/-- Embedding of `getBranchSuffix` (src/lib/branch-sanitizer.js). -/
def getBranchSuffix (branch productionBranch : String) : String :=
  if branch = productionBranch then ""
  else
    let sanitized := sanitizeBranchName branch
    if sanitized.isEmpty then "" else "-" ++ sanitized

/-- Embedding of `isProductionBranch` (src/lib/branch-sanitizer.js). -/
def isProductionBranch (branch productionBranch : String) : Bool :=
  branch == productionBranch

example : sanitizeBranchName "Feature/ABC_123!!" = "feature-abc-123" := by decide
example : sanitizeBranchName "Release/2.0" = "release-2-0" := by decide
example : getBranchSuffix "Release/2.0" "main" = "-release-2-0" := by decide
example : sanitizeBranchName "--a--b--" = "a-b" := by decide
example : sanitizeBranchName "###" = "" := by decide

/-- No two adjacent hyphens anywhere in the character list. -/
def NoHH (l : List Char) : Prop :=
  List.Chain' (fun a b => ¬(a = '-' ∧ b = '-')) l

theorem lowerAlnum_of_allowed {c : Char} (h : isAllowedChar c = true) (hne : c ≠ '-') :
    lowerAlnum c = true := by
  simp only [isAllowedChar, Bool.or_eq_true, beq_iff_eq] at h
  rcases h with h | h
  · exact h
  · exact absurd h hne

theorem jsToLower_allowed {c : Char} (h : isAllowedChar c = true) : jsToLower c = c := by
  simp only [isAllowedChar, lowerAlnum, Bool.or_eq_true, decide_eq_true_eq, beq_iff_eq] at h
  have hno : ¬(65 ≤ c.toNat ∧ c.toNat ≤ 90) := by
    rcases h with (h | h) | h
    · omega
    · omega
    · subst h; decide
  simp [jsToLower, hno]

theorem replaceInvalid_allowed (l : List Char) :
    ∀ c ∈ replaceInvalid l, isAllowedChar c = true := by
  intro c hc
  simp only [replaceInvalid, List.mem_map] at hc
  obtain ⟨a, -, rfl⟩ := hc
  by_cases h : isAllowedChar a = true
  · simp [h]
  · simp [h]
    decide

theorem replaceInvalid_id {l : List Char} (h : ∀ c ∈ l, isAllowedChar c = true) :
    replaceInvalid l = l := by
  unfold replaceInvalid
  conv_rhs => rw [← List.map_id l]
  exact List.map_congr_left fun a ha => by simp [h a ha]

theorem map_jsToLower_id {l : List Char} (h : ∀ c ∈ l, isAllowedChar c = true) :
    l.map jsToLower = l := by
  conv_rhs => rw [← List.map_id l]
  exact List.map_congr_left fun a ha => jsToLower_allowed (h a ha)

theorem collapseHyphens_head? (l : List Char) : (collapseHyphens l).head? = l.head? := by
  cases l with
  | nil => rfl
  | cons c rest =>
    simp only [collapseHyphens]
    by_cases hc : c = '-'
    · subst hc
      rw [if_pos rfl]
      by_cases hr : (collapseHyphens rest).head? = some '-'
      · rw [if_pos hr, hr]; rfl
      · rw [if_neg hr]; rfl
    · rw [if_neg hc]; rfl

theorem mem_collapseHyphens {l : List Char} : ∀ c ∈ collapseHyphens l, c ∈ l := by
  induction l with
  | nil => intro c hc; simp only [collapseHyphens] at hc; cases hc
  | cons a t ih =>
    intro c hc
    simp only [collapseHyphens] at hc
    by_cases ha : a = '-'
    · subst ha
      rw [if_pos rfl] at hc
      by_cases hr : (collapseHyphens t).head? = some '-'
      · rw [if_pos hr] at hc
        exact List.mem_cons_of_mem _ (ih c hc)
      · rw [if_neg hr] at hc
        rcases List.mem_cons.mp hc with rfl | hc
        · exact List.mem_cons_self _ _
        · exact List.mem_cons_of_mem _ (ih c hc)
    · rw [if_neg ha] at hc
      rcases List.mem_cons.mp hc with rfl | hc
      · exact List.mem_cons_self _ _
      · exact List.mem_cons_of_mem _ (ih c hc)

theorem collapseHyphens_noHH (l : List Char) : NoHH (collapseHyphens l) := by
  induction l with
  | nil => exact List.chain'_nil
  | cons a t ih =>
    simp only [collapseHyphens]
    by_cases ha : a = '-'
    · subst ha
      rw [if_pos rfl]
      by_cases hr : (collapseHyphens t).head? = some '-'
      · rw [if_pos hr]; exact ih
      · rw [if_neg hr]
        refine List.chain'_cons'.mpr ⟨?_, ih⟩
        rintro y hy ⟨-, rfl⟩
        exact hr hy
    · rw [if_neg ha]
      refine List.chain'_cons'.mpr ⟨?_, ih⟩
      rintro y hy ⟨h1, -⟩
      exact ha h1

theorem collapseHyphens_id {l : List Char} (h : NoHH l) : collapseHyphens l = l := by
  induction l with
  | nil => rfl
  | cons a t ih =>
    obtain ⟨hrel, ht⟩ := List.chain'_cons'.mp h
    simp only [collapseHyphens]
    rw [ih ht]
    by_cases ha : a = '-'
    · subst ha
      rw [if_pos rfl, if_neg]
      intro hh
      exact hrel '-' hh ⟨rfl, rfl⟩
    · rw [if_neg ha]

theorem head?_dropWhile_false {p : Char → Bool} {l : List Char} {a : Char}
    (h : (l.dropWhile p).head? = some a) : p a = false := by
  induction l with
  | nil => simp at h
  | cons c t ih =>
    rw [List.dropWhile_cons] at h
    by_cases hc : p c = true
    · rw [if_pos hc] at h; exact ih h
    · rw [if_neg hc] at h
      simp only [List.head?_cons, Option.some.injEq] at h
      subst h
      exact Bool.not_eq_true _ ▸ hc

theorem dropWhile_id_of_head? {p : Char → Bool} {l : List Char}
    (h : ∀ a, l.head? = some a → p a = false) : l.dropWhile p = l := by
  cases l with
  | nil => rfl
  | cons c t =>
    rw [List.dropWhile_cons, if_neg]
    simp [h c rfl]

theorem dropLeadingHyphens_head {l : List Char} {a : Char}
    (h : (dropLeadingHyphens l).head? = some a) : a ≠ '-' := by
  have := head?_dropWhile_false h
  simpa using this

theorem dropLeadingHyphens_id {l : List Char}
    (h : ∀ a, l.head? = some a → a ≠ '-') : dropLeadingHyphens l = l :=
  dropWhile_id_of_head? fun a ha => by simpa using h a ha

theorem dropTrailingHyphens_isPrefix (l : List Char) : dropTrailingHyphens l <+: l := by
  obtain ⟨t, ht⟩ := List.dropWhile_suffix (l := l.reverse) (· = '-')
  refine ⟨t.reverse, ?_⟩
  rw [dropTrailingHyphens, ← List.reverse_append, ht, List.reverse_reverse]

theorem dropTrailingHyphens_getLast? {l : List Char} {a : Char}
    (h : (dropTrailingHyphens l).getLast? = some a) : a ≠ '-' := by
  rw [dropTrailingHyphens, List.getLast?_reverse] at h
  have := head?_dropWhile_false h
  simpa using this

theorem dropTrailingHyphens_id {l : List Char}
    (h : ∀ a, l.getLast? = some a → a ≠ '-') : dropTrailingHyphens l = l := by
  rw [dropTrailingHyphens, dropWhile_id_of_head?, List.reverse_reverse]
  intro a ha
  rw [List.head?_reverse] at ha
  simpa using h a ha

theorem head?_of_isPrefix {l₁ l₂ : List Char} (h : l₁ <+: l₂) {a : Char}
    (ha : l₁.head? = some a) : l₂.head? = some a := by
  obtain ⟨t, rfl⟩ := h
  cases l₁ with
  | nil => simp at ha
  | cons c u => simpa using ha

/-- The invariant `sanitizeBranchName` establishes: only `[a-z0-9-]`
characters, no adjacent hyphens, no leading or trailing hyphen, and at
most 63 characters. -/
structure GoodList (l : List Char) : Prop where
  allowed : ∀ c ∈ l, isAllowedChar c = true
  noHH : NoHH l
  headOk : ∀ a, l.head? = some a → a ≠ '-'
  lastOk : ∀ a, l.getLast? = some a → a ≠ '-'
  short : l.length ≤ 63

theorem goodList_pipeline (m : List Char) (hm : ∀ c ∈ m, isAllowedChar c = true) :
    GoodList (dropTrailingHyphens
      ((dropTrailingHyphens (dropLeadingHyphens (collapseHyphens m))).take 63)) := by
  set k := collapseHyphens m with hk
  have hkAllowed : ∀ c ∈ k, isAllowedChar c = true :=
    fun c hc => hm c (mem_collapseHyphens c hc)
  have hkNoHH : NoHH k := collapseHyphens_noHH m
  set d := dropLeadingHyphens k with hd
  have hdSuffix : d <:+ k := List.dropWhile_suffix _
  have hdAllowed : ∀ c ∈ d, isAllowedChar c = true :=
    fun c hc => hkAllowed c (hdSuffix.sublist.mem hc)
  have hdNoHH : NoHH d := hkNoHH.suffix hdSuffix
  have hdHead : ∀ a, d.head? = some a → a ≠ '-' := fun a ha => dropLeadingHyphens_head ha
  set e := dropTrailingHyphens d with he
  have hePrefix : e <+: d := dropTrailingHyphens_isPrefix d
  have heAllowed : ∀ c ∈ e, isAllowedChar c = true :=
    fun c hc => hdAllowed c (hePrefix.sublist.mem hc)
  have heNoHH : NoHH e := List.Chain'.prefix hdNoHH hePrefix
  have heHead : ∀ a, e.head? = some a → a ≠ '-' :=
    fun a ha => hdHead a (head?_of_isPrefix hePrefix ha)
  set f := e.take 63 with hf
  have hfPrefix : f <+: e := List.take_prefix _ _
  have hfAllowed : ∀ c ∈ f, isAllowedChar c = true :=
    fun c hc => heAllowed c (hfPrefix.sublist.mem hc)
  have hfNoHH : NoHH f := List.Chain'.prefix heNoHH hfPrefix
  have hfHead : ∀ a, f.head? = some a → a ≠ '-' :=
    fun a ha => heHead a (head?_of_isPrefix hfPrefix ha)
  have hfLen : f.length ≤ 63 := by
    rw [hf, List.length_take]
    exact min_le_left _ _
  set g := dropTrailingHyphens f with hg
  have hgPrefix : g <+: f := dropTrailingHyphens_isPrefix f
  exact
    { allowed := fun c hc => hfAllowed c (hgPrefix.sublist.mem hc)
      noHH := List.Chain'.prefix hfNoHH hgPrefix
      headOk := fun a ha => hfHead a (head?_of_isPrefix hgPrefix ha)
      lastOk := fun a ha => dropTrailingHyphens_getLast? ha
      short := le_trans hgPrefix.length_le hfLen }

theorem sanitizeList_good (l : List Char) : GoodList (sanitizeList l) :=
  goodList_pipeline _ (replaceInvalid_allowed _)

theorem sanitizeList_id {l : List Char} (h : GoodList l) : sanitizeList l = l := by
  rw [sanitizeList, map_jsToLower_id h.allowed, replaceInvalid_id h.allowed,
    collapseHyphens_id h.noHH, dropLeadingHyphens_id h.headOk,
    dropTrailingHyphens_id h.lastOk, List.take_of_length_le h.short,
    dropTrailingHyphens_id h.lastOk]

/-- Decidable transliteration of the regex of the spec,
`[a-z0-9]` then optionally up to 61 characters of `[a-z0-9-]` and a final
`[a-z0-9]`, or the empty string. -/
def matchesNameRegex (s : String) : Bool :=
  match s.data with
  | [] => true
  | [c] => lowerAlnum c
  | c :: rest =>
    lowerAlnum c && decide (rest.length ≤ 62) &&
      rest.dropLast.all isAllowedChar &&
      (match rest.getLast? with
       | some d => lowerAlnum d
       | none => false)

theorem matchesNameRegex_of_good {l : List Char} (h : GoodList l) :
    matchesNameRegex ⟨l⟩ = true := by
  cases l with
  | nil => rfl
  | cons a rest =>
    cases rest with
    | nil =>
      have hc : a ≠ '-' := h.headOk a rfl
      have ha : isAllowedChar a = true := h.allowed a (by simp)
      simp [matchesNameRegex, lowerAlnum_of_allowed ha hc]
    | cons b t =>
      have hne : a ≠ '-' := h.headOk a rfl
      have ha : lowerAlnum a = true := lowerAlnum_of_allowed (h.allowed a (by simp)) hne
      have hlen : (b :: t).length ≤ 62 := by
        have := h.short
        simp only [List.length_cons] at this ⊢
        omega
      have hmid : (b :: t).dropLast.all isAllowedChar = true := by
        rw [List.all_eq_true]
        intro x hx
        exact h.allowed x (List.mem_cons_of_mem _ ((List.dropLast_sublist _).mem hx))
      cases hgl : (b :: t).getLast? with
      | none =>
        rw [List.getLast?_eq_none_iff] at hgl
        cases hgl
      | some d =>
        have hdl : (a :: b :: t).getLast? = some d := by
          rw [List.getLast?_cons_cons]; exact hgl
        have hdne : d ≠ '-' := h.lastOk d hdl
        have hdmem : d ∈ a :: b :: t :=
          List.mem_cons_of_mem _ (List.mem_of_mem_getLast? hgl)
        have hdA : lowerAlnum d = true := lowerAlnum_of_allowed (h.allowed d hdmem) hdne
        simp only [List.length_cons] at hlen
        simp [matchesNameRegex, ha, hmid, hgl, hdA]
        omega

/-- C3: for every string `s`, `sanitize(s)` is empty or matches
`[a-z0-9]([a-z0-9-]\x7b0,61\x7d[a-z0-9])?` — lowercase alphanumerics and
hyphens, no leading, trailing, or consecutive hyphens — and its length is
at most 63. -/
theorem sanitize_shape (s : String) :
    matchesNameRegex (sanitizeBranchName s) = true ∧
    (sanitizeBranchName s).length ≤ 63 ∧
    NoHH (sanitizeBranchName s).data := by
  have h := sanitizeList_good s.data
  exact ⟨matchesNameRegex_of_good h, h.short, h.noHH⟩

/-- C9: sanitize is idempotent. -/
theorem sanitize_idempotent (s : String) :
    sanitizeBranchName (sanitizeBranchName s) = sanitizeBranchName s := by
  unfold sanitizeBranchName
  exact congrArg String.mk (sanitizeList_id (sanitizeList_good s.data))

/-- JavaScript `String.prototype.includes` on character lists: the
needle occurs somewhere in the haystack (an empty needle always does). -/
def containsSubL (haystack needle : List Char) : Bool :=
  needle.isPrefixOf haystack ||
    match haystack with
    | [] => false
    | _ :: t => containsSubL t needle

/-- JavaScript `String.prototype.includes`. -/
def containsSub (haystack needle : String) : Bool :=
  containsSubL haystack.data needle.data

/-- Character class `[a-f0-9]` of the identifier regexes. -/
def hexLower (c : Char) : Bool :=
  decide (97 ≤ c.toNat ∧ c.toNat ≤ 102) || decide (48 ≤ c.toNat ∧ c.toNat ≤ 57)

/-- Character class `[a-f0-9-]`. -/
def hexDash (c : Char) : Bool :=
  hexLower c || (c == '-')

/-- Whitespace for the `s`-star gaps of the scanned patterns. -/
def isSpaceChar (c : Char) : Bool :=
  c == ' ' || c == '\t' || c == '\n' || c == '\r'

/-- Exactly `n` characters of class `p`: the matched run and the rest. -/
def takeClassN (p : Char → Bool) : Nat → List Char → Option (List Char × List Char)
  | 0, l => some ([], l)
  | _ + 1, [] => none
  | n + 1, c :: t =>
    if p c then (takeClassN p n t).map (fun r => (c :: r.1, r.2)) else none

/-- Consume one hyphen. -/
def expectDash : List Char → Option (List Char)
  | '-' :: t => some t
  | _ => none

/-- Match the UUID shape (8-4-4-4-12 lowercase hex) anchored at the
start of the character list. -/
def matchUuidAt (l : List Char) : Option String :=
  (takeClassN hexLower 8 l).bind fun p1 =>
  (expectDash p1.2).bind fun r1 =>
  (takeClassN hexLower 4 r1).bind fun p2 =>
  (expectDash p2.2).bind fun r2 =>
  (takeClassN hexLower 4 r2).bind fun p3 =>
  (expectDash p3.2).bind fun r3 =>
  (takeClassN hexLower 4 r3).bind fun p4 =>
  (expectDash p4.2).bind fun r4 =>
  (takeClassN hexLower 12 r4).map fun p5 =>
  ⟨p1.1 ++ '-' :: p2.1 ++ '-' :: p3.1 ++ '-' :: p4.1 ++ '-' :: p5.1⟩

/-- First position where the UUID shape matches: JavaScript `match`
scans start positions left to right. -/
def scanUuid : List Char → Option String
  | [] => none
  | c :: t =>
    match matchUuidAt (c :: t) with
    | some s => some s
    | none => scanUuid t

/-- Match 32 lowercase-hex characters anchored at the start. -/
def matchHex32At (l : List Char) : Option String :=
  (takeClassN hexLower 32 l).map fun p => ⟨p.1⟩

/-- First position with 32 consecutive lowercase-hex characters. -/
def scanHex32 : List Char → Option String
  | [] => none
  | c :: t =>
    match matchHex32At (c :: t) with
    | some s => some s
    | none => scanHex32 t

/-- Match `database_id`, optional whitespace, `=`, optional whitespace,
then a quoted nonempty `[a-f0-9-]` run, anchored at the start. -/
def matchD1CreateAt (l : List Char) : Option String :=
  if "database_id".data.isPrefixOf l then
    match (l.drop 11).dropWhile isSpaceChar with
    | '=' :: r2 =>
      match r2.dropWhile isSpaceChar with
      | '"' :: r4 =>
        let digits := r4.takeWhile hexDash
        if digits.isEmpty then none
        else
          match r4.dropWhile hexDash with
          | '"' :: _ => some ⟨digits⟩
          | _ => none
      | _ => none
    | _ => none
  else none

/-- Scan of the previous pattern over all start positions. -/
def scanD1CreateId : List Char → Option String
  | [] => none
  | c :: t =>
    match matchD1CreateAt (c :: t) with
    | some s => some s
    | none => scanD1CreateId t

/-- Embedding of `parseD1CreateOutput` (src/lib/provisioner.js). -/
def parseD1CreateOutput (output : String) : Option String :=
  scanD1CreateId output.data

/-- Match `id=` then a quoted nonempty `[a-f0-9]` run, anchored at the
start of the character list. -/
def matchKVCreateAt (l : List Char) : Option String :=
  if "id=\"".data.isPrefixOf l then
    let r := l.drop 4
    let digits := r.takeWhile hexLower
    if digits.isEmpty then none
    else
      match r.dropWhile hexLower with
      | '"' :: _ => some ⟨digits⟩
      | _ => none
  else none

/-- Scan of the previous pattern over all start positions. -/
def scanKVCreateId : List Char → Option String
  | [] => none
  | c :: t =>
    match matchKVCreateAt (c :: t) with
    | some s => some s
    | none => scanKVCreateId t

/-- Identifier extraction of `provisionKV`'s create step
(src/lib/provisioner.js). -/
def parseKVCreateOutput (output : String) : Option String :=
  scanKVCreateId output.data

/-- One row of the structured D1 listing: `name` and `uuid`. -/
structure D1Entry where
  name : String
  uuid : String
deriving DecidableEq, Repr

/-- One row of the structured KV listing: `title` and `id`. -/
structure KVEntry where
  title : String
  id : String
deriving DecidableEq, Repr

/-- What the two D1 listing subprocesses yield: the parsed JSON listing
(`none` when the `--json` invocation fails or its output does not parse)
and the raw text output of the plain invocation (`none` when it throws). -/
structure D1ListingView where
  json : Option (List D1Entry)
  text : Option String

/-- The KV analogue of `D1ListingView`. -/
structure KVListingView where
  json : Option (List KVEntry)
  text : Option String

/-- JavaScript `split` at newline characters on a character list:
always at least one (possibly empty) line. -/
def splitLines : List Char → List (List Char)
  | [] => [[]]
  | c :: t =>
    if c = '\n' then [] :: splitLines t
    else
      match splitLines t with
      | [] => [[c]]
      | l :: ls => (c :: l) :: ls

/-- Embedding of `findD1Database` (src/lib/provisioner.js): the
structured path returns the `uuid` of the first row whose `name` equals
the target exactly; when it yields nothing, every line of the text
output that contains the target as a substring is scanned for a
UUID-shaped token; a failure anywhere yields `none` ("not found"). -/
def findD1Database (v : D1ListingView) (name : String) : Option String :=
  match v.json.bind (fun dbs => dbs.find? fun db => db.name == name) with
  | some db => some db.uuid
  | none =>
    match v.text with
    | none => none
    | some output =>
      (splitLines output.data).findSome? fun line =>
        if containsSubL line name.data then scanUuid line else none

/-- Embedding of `findR2Bucket` (src/lib/provisioner.js): a substring
test of the target name against the raw listing output (`none` = the
listing subprocess threw). -/
def findR2Bucket (out : Option String) (name : String) : Bool :=
  match out with
  | none => false
  | some output => containsSub output name

/-- Embedding of `findKVNamespace` (src/lib/provisioner.js). -/
def findKVNamespace (v : KVListingView) (name : String) : Option String :=
  match v.json.bind (fun nss => nss.find? fun ns => ns.title == name) with
  | some ns => some ns.id
  | none =>
    match v.text with
    | none => none
    | some output =>
      (splitLines output.data).findSome? fun line =>
        if containsSubL line name.data then scanHex32 line else none

/-- A declared D1 binding: worker-visible `binding` name and base
database `name` (src/lib/toml-parser.js, `extractBindings`). -/
structure D1Binding where
  binding : String
  name : String

/-- A declared KV binding: the `id` field doubles as the base name. -/
structure KVBinding where
  binding : String
  id : String

/-- Provider state one `provisionD1` run observes: the listing at first
discovery, the create output (`none` = the create subprocess throws),
the listing at the post-create retry, and the filesystem/subprocess
facts of the migration and seed steps. -/
structure D1World where
  before : D1ListingView
  createOut : Option String
  after : D1ListingView
  migrationsExist : Bool
  seedExists : Bool
  migrationOk : Bool
  seedOk : Bool

/-- Observable outcome of a `provisionD1` run: how many times the
create primitive and the finder ran, whether the temporary config
fragment was written and whether it was unlinked, the returned
`(id, name)` on normal return, and whether the run ended in
`process.exit(1)` or an uncaught exception. -/
structure D1Outcome where
  createCalls : Nat
  findCalls : Nat
  tmpWritten : Bool
  tmpRemoved : Bool
  result : Option (String × String)
  exited : Bool
  threw : Bool
deriving DecidableEq, Repr

/-- The migration/seed tail of `provisionD1`: the temporary config is
written when a migrations directory or a seed file exists; a failing
step calls `process.exit(1)` inside its `catch`, which terminates Node
immediately — the `finally` that unlinks the temporary config does NOT
run on those paths, only on normal completion. -/
def d1Steps (w : D1World) (dbName dbId : String) (cc fc : Nat) : D1Outcome :=
  let needsTmp := w.migrationsExist || w.seedExists
  if w.migrationsExist && !w.migrationOk then
    ⟨cc, fc, needsTmp, false, none, true, false⟩
  else if w.seedExists && !w.seedOk then
    ⟨cc, fc, needsTmp, false, none, true, false⟩
  else
    ⟨cc, fc, needsTmp, needsTmp, some (dbId, dbName), false, false⟩

/-- Embedding of `provisionD1` (src/lib/provisioner.js): discover, else
create and parse the create output, else retry the finder once, else
`process.exit(1)`; then the migration/seed tail. -/
def provisionD1 (b : D1Binding) (suffix : String) (w : D1World) : D1Outcome :=
  if truthy (findD1Database w.before (b.name ++ suffix)) then
    d1Steps w (b.name ++ suffix) ((findD1Database w.before (b.name ++ suffix)).getD "") 0 1
  else
    match w.createOut with
    | none => ⟨1, 1, false, false, none, false, true⟩
    | some out =>
      if truthy (parseD1CreateOutput out) then
        d1Steps w (b.name ++ suffix) ((parseD1CreateOutput out).getD "") 1 1
      else if truthy (findD1Database w.after (b.name ++ suffix)) then
        d1Steps w (b.name ++ suffix) ((findD1Database w.after (b.name ++ suffix)).getD "") 1 2
      else
        ⟨1, 2, false, false, none, true, false⟩

/-- Provider state one `provisionKV` run observes. -/
structure KVWorld where
  before : KVListingView
  createOut : Option String

/-- Observable outcome of a `provisionKV` run. -/
structure KVOutcome where
  createCalls : Nat
  findCalls : Nat
  result : Option String
  exited : Bool
deriving DecidableEq, Repr

/-- Embedding of `provisionKV` (src/lib/provisioner.js): discover, else
create and extract the id from the create output; an unparsable create
output exits at once — there is no second listing attempt. -/
def provisionKV (b : KVBinding) (suffix : String) (w : KVWorld) : KVOutcome :=
  if truthy (findKVNamespace w.before (b.id ++ suffix)) then
    ⟨0, 1, some ((findKVNamespace w.before (b.id ++ suffix)).getD ""), false⟩
  else
    match w.createOut with
    | none => ⟨1, 1, none, true⟩
    | some out =>
      match parseKVCreateOutput out with
      | some nid => if nid.isEmpty then ⟨1, 1, none, true⟩ else ⟨1, 1, some nid, false⟩
      | none => ⟨1, 1, none, true⟩

example : parseD1CreateOutput "created!\ndatabase_id = \"12ab-34cd\"\n" = some "12ab-34cd" := by
  decide
example : parseKVCreateOutput "namespace created with id=\"0a1b2c\"" = some "0a1b2c" := by
  decide
example : scanUuid "x 12345678-abcd-0000-ffff-0123456789ab x".data =
    some "12345678-abcd-0000-ffff-0123456789ab" := by decide
example : findR2Bucket (some "bucket-one\nmy-app-data-release-2-0\n") "my-app-data" = true := by
  decide
example :
    findD1Database ⟨some [⟨"my-app-db", "u1"⟩, ⟨"my-app-db-release-2-0", "u2"⟩], none⟩
      "my-app-db-release-2-0" = some "u2" := by decide

theorem truthy_some {s : String} (h : s ≠ "") : truthy (some s) = true := by
  have he : s.isEmpty = false := by
    rw [Bool.eq_false_iff]
    simp [String.isEmpty_iff, h]
  simp [truthy, he]

theorem data_ne_nil {s : String} (h : s ≠ "") : s.data ≠ [] := by
  intro hd
  apply h
  cases s with
  | mk d =>
    simp only at hd
    subst hd
    rfl

theorem containsSubL_nil {nd : List Char} (h : nd ≠ []) : containsSubL [] nd = false := by
  cases nd with
  | nil => exact absurd rfl h
  | cons c t => rfl

theorem findD1Database_found {v : D1ListingView} {name : String} {dbs : List D1Entry}
    {e : D1Entry} (hj : v.json = some dbs)
    (hf : (dbs.find? fun db => db.name == name) = some e) :
    findD1Database v name = some e.uuid := by
  unfold findD1Database
  rw [hj, Option.some_bind, hf]

theorem findKVNamespace_found {v : KVListingView} {name : String} {nss : List KVEntry}
    {e : KVEntry} (hj : v.json = some nss)
    (hf : (nss.find? fun ns => ns.title == name) = some e) :
    findKVNamespace v name = some e.id := by
  unfold findKVNamespace
  rw [hj, Option.some_bind, hf]

theorem findD1Database_empty_none {v : D1ListingView} {name : String}
    (hj : v.json = some []) (ht : v.text = some "") (h : name ≠ "") :
    findD1Database v name = none := by
  unfold findD1Database
  rw [hj, Option.some_bind, ht]
  show (splitLines ("" : String).data).findSome?
      (fun line => if containsSubL line name.data then scanUuid line else none) = none
  rw [show splitLines ("" : String).data = [[]] from rfl, List.findSome?_cons,
    containsSubL_nil (data_ne_nil h)]
  simp

theorem findKVNamespace_empty_none {v : KVListingView} {name : String}
    (hj : v.json = some []) (ht : v.text = some "") (h : name ≠ "") :
    findKVNamespace v name = none := by
  unfold findKVNamespace
  rw [hj, Option.some_bind, ht]
  show (splitLines ("" : String).data).findSome?
      (fun line => if containsSubL line name.data then scanHex32 line else none) = none
  rw [show splitLines ("" : String).data = [[]] from rfl, List.findSome?_cons,
    containsSubL_nil (data_ne_nil h)]
  simp

theorem d1Steps_findCalls (w : D1World) (n i : String) (cc fc : Nat) :
    (d1Steps w n i cc fc).findCalls = fc := by
  unfold d1Steps
  split
  · rfl
  split
  · rfl
  · rfl

theorem d1Steps_ok {w : D1World} (n i : String) (cc fc : Nat)
    (hm : w.migrationOk = true) (hs : w.seedOk = true) :
    d1Steps w n i cc fc =
      ⟨cc, fc, w.migrationsExist || w.seedExists, w.migrationsExist || w.seedExists,
        some (i, n), false, false⟩ := by
  unfold d1Steps
  rw [hm, hs]
  simp

theorem provisionD1_found {b : D1Binding} {suffix : String} {w : D1World} {id : String}
    (h : findD1Database w.before (b.name ++ suffix) = some id) (hne : id ≠ "") :
    provisionD1 b suffix w = d1Steps w (b.name ++ suffix) id 0 1 := by
  unfold provisionD1
  rw [h, if_pos (truthy_some hne)]
  rfl

theorem provisionD1_create_parsed {b : D1Binding} {suffix : String} {w : D1World}
    {out X : String} (h : findD1Database w.before (b.name ++ suffix) = none)
    (hout : w.createOut = some out) (hp : parseD1CreateOutput out = some X) (hX : X ≠ "") :
    provisionD1 b suffix w = d1Steps w (b.name ++ suffix) X 1 1 := by
  unfold provisionD1
  rw [h, if_neg (by simp [truthy]), hout]
  show (if truthy (parseD1CreateOutput out) then
      d1Steps w (b.name ++ suffix) ((parseD1CreateOutput out).getD "") 1 1
    else if truthy (findD1Database w.after (b.name ++ suffix)) then
      d1Steps w (b.name ++ suffix) ((findD1Database w.after (b.name ++ suffix)).getD "") 1 2
    else ⟨1, 2, false, false, none, true, false⟩) = _
  rw [hp, if_pos (truthy_some hX)]
  rfl

theorem provisionD1_parse_failed {b : D1Binding} {suffix : String} {w : D1World}
    {out : String} (h : findD1Database w.before (b.name ++ suffix) = none)
    (hout : w.createOut = some out) (hp : parseD1CreateOutput out = none) :
    provisionD1 b suffix w =
      if truthy (findD1Database w.after (b.name ++ suffix)) then
        d1Steps w (b.name ++ suffix) ((findD1Database w.after (b.name ++ suffix)).getD "") 1 2
      else ⟨1, 2, false, false, none, true, false⟩ := by
  unfold provisionD1
  rw [h, if_neg (by simp [truthy]), hout]
  show (if truthy (parseD1CreateOutput out) then
      d1Steps w (b.name ++ suffix) ((parseD1CreateOutput out).getD "") 1 1
    else if truthy (findD1Database w.after (b.name ++ suffix)) then
      d1Steps w (b.name ++ suffix) ((findD1Database w.after (b.name ++ suffix)).getD "") 1 2
    else ⟨1, 2, false, false, none, true, false⟩) = _
  rw [hp, if_neg (by simp [truthy])]

/-- C1 counterexample: the blob-store discovery step reports "found"
for target `my-app-data` on a listing output whose only entry name
strictly extends the target, although the claim requires "not found"
when no entry equals the target exactly. -/
theorem r2_discovery_substring_counterexample :
    findR2Bucket (some "my-app-data-release-2-0") "my-app-data" = true ∧
    "my-app-data-release-2-0" ≠ "my-app-data" := by
  exact ⟨by decide, by decide⟩

/-- C1 (amended): the structured JSON discovery paths of the database
and key-value kinds report an existing resource only when some listing
row's name/title equals the target exactly; the blob-store discovery is
exactly a substring test of the target against the raw listing output,
so entry names strictly containing the target are also reported found
there (and likewise by the database/key-value text fallbacks, which
match any output line containing the target). -/
theorem discovery_exact_on_json_substring_on_r2 (dbs : List D1Entry) (nss : List KVEntry)
    (name id out : String) :
    (findD1Database ⟨some dbs, none⟩ name = some id →
      ∃ db ∈ dbs, db.name = name ∧ db.uuid = id) ∧
    (findKVNamespace ⟨some nss, none⟩ name = some id →
      ∃ ns ∈ nss, ns.title = name ∧ ns.id = id) ∧
    findR2Bucket (some out) name = containsSub out name := by
  refine ⟨?_, ?_, rfl⟩
  · intro h
    unfold findD1Database at h
    rw [Option.some_bind] at h
    cases hf : dbs.find? (fun db => db.name == name) with
    | none => rw [hf] at h; simp at h
    | some db =>
      rw [hf] at h
      have hid : db.uuid = id := by simpa using h
      refine ⟨db, List.mem_of_find?_eq_some hf, ?_, hid⟩
      have := List.find?_some hf
      simpa using this
  · intro h
    unfold findKVNamespace at h
    rw [Option.some_bind] at h
    cases hf : nss.find? (fun ns => ns.title == name) with
    | none => rw [hf] at h; simp at h
    | some ns =>
      rw [hf] at h
      have hid : ns.id = id := by simpa using h
      refine ⟨ns, List.mem_of_find?_eq_some hf, ?_, hid⟩
      have := List.find?_some hf
      simpa using this

/-- C2: when the structured listing already holds a row whose name is
exactly the target, provisioning performs no create call and returns
that row's identifier; when the listing is empty, provisioning performs
exactly one create call and returns the identifier parsed from the
create output (database and key-value kinds). -/
theorem provision_discover_or_create (b : D1Binding) (kb : KVBinding) (suffix out : String)
    (w : D1World) (kw : KVWorld) :
    (∀ dbs e, w.before.json = some dbs →
      (dbs.find? fun db => db.name == b.name ++ suffix) = some e →
      e.uuid ≠ "" → w.migrationOk = true → w.seedOk = true →
      (provisionD1 b suffix w).createCalls = 0 ∧
      (provisionD1 b suffix w).result = some (e.uuid, b.name ++ suffix)) ∧
    (w.before.json = some [] → w.before.text = some "" → b.name ++ suffix ≠ "" →
      w.createOut = some out →
      ∀ X, parseD1CreateOutput out = some X → X ≠ "" →
      w.migrationOk = true → w.seedOk = true →
      (provisionD1 b suffix w).createCalls = 1 ∧
      (provisionD1 b suffix w).result = some (X, b.name ++ suffix)) ∧
    (∀ nss e, kw.before.json = some nss →
      (nss.find? fun ns => ns.title == kb.id ++ suffix) = some e →
      e.id ≠ "" →
      provisionKV kb suffix kw = ⟨0, 1, some e.id, false⟩) ∧
    (kw.before.json = some [] → kw.before.text = some "" → kb.id ++ suffix ≠ "" →
      kw.createOut = some out →
      ∀ X, parseKVCreateOutput out = some X → X ≠ "" →
      provisionKV kb suffix kw = ⟨1, 1, some X, false⟩) := by
  refine ⟨?_, ?_, ?_, ?_⟩
  · intro dbs e hj hf hne hm hs
    rw [provisionD1_found (findD1Database_found hj hf) hne, d1Steps_ok _ _ _ _ hm hs]
    exact ⟨rfl, rfl⟩
  · intro hj ht hn hout X hp hX hm hs
    rw [provisionD1_create_parsed (findD1Database_empty_none hj ht hn) hout hp hX,
      d1Steps_ok _ _ _ _ hm hs]
    exact ⟨rfl, rfl⟩
  · intro nss e hj hf hne
    unfold provisionKV
    rw [findKVNamespace_found hj hf, if_pos (truthy_some hne)]
    rfl
  · intro hj ht hn hout X hp hX
    unfold provisionKV
    rw [findKVNamespace_empty_none hj ht hn, if_neg (by simp [truthy]), hout]
    show (match parseKVCreateOutput out with
      | some nid => if nid.isEmpty then (⟨1, 1, none, true⟩ : KVOutcome)
          else ⟨1, 1, some nid, false⟩
      | none => ⟨1, 1, none, true⟩) = (⟨1, 1, some X, false⟩ : KVOutcome)
    rw [hp]
    have he : X.isEmpty = false := by
      rw [Bool.eq_false_iff]
      simp [String.isEmpty_iff, hX]
    simp [he]

/-- C5: at a world where the migrations directory exists and the
migration subprocess fails, the run writes the temporary configuration
fragment and exits fatally WITHOUT removing it: `process.exit(1)` inside
the `catch` terminates Node before the `finally` that unlinks the
fragment can run, contradicting removal on every exit path. -/
theorem d1_migration_failure_leaves_tmp_config :
    provisionD1 ⟨"DB", "my-app-db"⟩ "-release-2-0"
      ⟨⟨some [⟨"my-app-db-release-2-0", "u1"⟩], none⟩, none, ⟨none, none⟩,
        true, false, false, true⟩ =
      ⟨0, 1, true, false, none, true, false⟩ := by decide

/-- C6 counterexample: for the key-value kind, when the create output
holds no parsable identifier the run halts fatally after a single
listing call — no second listing attempt is made. -/
theorem kv_no_second_listing_counterexample :
    provisionKV ⟨"CACHE", "my-kv"⟩ "-foo" ⟨⟨some [], some ""⟩, some "namespace created"⟩ =
      ⟨1, 1, none, true⟩ := by decide

/-- C6 (amended): when the create output yields no parsable identifier,
the database kind performs a second listing attempt (two finder calls)
and halts fatally only when that attempt also recovers nothing, while
the key-value kind halts fatally at once after its single listing call. -/
theorem identifier_recovery_second_listing (b : D1Binding) (kb : KVBinding)
    (suffix out : String) (w : D1World) (kw : KVWorld) :
    (findD1Database w.before (b.name ++ suffix) = none →
      w.createOut = some out →
      parseD1CreateOutput out = none →
      (provisionD1 b suffix w).findCalls = 2 ∧
      (findD1Database w.after (b.name ++ suffix) = none →
        provisionD1 b suffix w = ⟨1, 2, false, false, none, true, false⟩) ∧
      (∀ id, findD1Database w.after (b.name ++ suffix) = some id → id ≠ "" →
        w.migrationOk = true → w.seedOk = true →
        (provisionD1 b suffix w).result = some (id, b.name ++ suffix) ∧
        (provisionD1 b suffix w).exited = false)) ∧
    (findKVNamespace kw.before (kb.id ++ suffix) = none →
      kw.createOut = some out →
      parseKVCreateOutput out = none →
      provisionKV kb suffix kw = ⟨1, 1, none, true⟩) := by
  constructor
  · intro hfind hout hp
    have hred := provisionD1_parse_failed hfind hout hp
    refine ⟨?_, ?_, ?_⟩
    · rw [hred]
      by_cases h2 : truthy (findD1Database w.after (b.name ++ suffix)) = true
      · rw [if_pos h2, d1Steps_findCalls]
      · rw [if_neg h2]
    · intro hn2
      rw [hred, hn2, if_neg (by simp [truthy])]
    · intro id h2 hne hm hs
      rw [hred, h2, if_pos (truthy_some hne), d1Steps_ok _ _ _ _ hm hs]
      exact ⟨rfl, rfl⟩
  · intro hfind hout hp
    unfold provisionKV
    rw [hfind, if_neg (by simp [truthy]), hout]
    show (match parseKVCreateOutput out with
      | some nid => if nid.isEmpty then (⟨1, 1, none, true⟩ : KVOutcome)
          else ⟨1, 1, some nid, false⟩
      | none => ⟨1, 1, none, true⟩) = (⟨1, 1, none, true⟩ : KVOutcome)
    rw [hp]

/-- A declared R2 binding: worker-visible `binding` name and base
bucket `name`. -/
structure R2Binding where
  binding : String
  name : String

/-- One row of the R2 bucket listing. -/
structure R2Entry where
  name : String
deriving DecidableEq, Repr

/-- The declared bindings grouped by kind, as `extractBindings`
produces them (src/lib/toml-parser.js). -/
structure CleanupBindings where
  d1 : List D1Binding
  r2 : List R2Binding
  kv : List KVBinding

/-- A D1 row of the deletion list (`name` and `id`). -/
structure D1Target where
  name : String
  id : String
deriving DecidableEq, Repr

/-- An R2 row of the deletion list. -/
structure R2Target where
  name : String
deriving DecidableEq, Repr

/-- A KV row of the deletion list (`id` and `title`). -/
structure KVTarget where
  id : String
  title : String
deriving DecidableEq, Repr

/-- The per-kind deletion lists `findBranchResources` returns. -/
structure ToDelete where
  d1 : List D1Target
  r2 : List R2Target
  kv : List KVTarget

/-- JavaScript `startsWith` on code points. -/
def startsWithS (s p : String) : Bool :=
  p.data.isPrefixOf s.data

/-- The suffix filter of `findBranchResources`: JavaScript's truthiness
test `branchFilter ? ... : null` treats an empty filter string exactly
like no filter. -/
def cleanupSuffix (branchFilter : Option String) : Option String :=
  match branchFilter with
  | none => none
  | some b => if b.isEmpty then none else some ("-" ++ sanitizeBranchName b)

/-- The per-resource matching test of `findBranchResources`: not the
base name itself, starts with the base name plus a hyphen, and — when a
suffix filter is present — equals base-plus-suffix exactly. -/
def branchMatch (entryName baseName : String) (suffix : Option String) : Bool :=
  if entryName == baseName then false
  else if !startsWithS entryName (baseName ++ "-") then false
  else
    match suffix with
    | some s => entryName == baseName ++ s
    | none => true

/-- Embedding of `findBranchResources` (src/lib/cleanup.js): for every
remote resource and every declared base of the kind, in that nesting
order, the resource is appended once per base it matches. -/
def findBranchResources (bindings : CleanupBindings) (branchFilter : Option String)
    (allDatabases : List D1Entry) (allBuckets : List R2Entry)
    (allNamespaces : List KVEntry) : ToDelete :=
  { d1 := allDatabases.flatMap fun db =>
      (bindings.d1.map fun b => b.name).filterMap fun baseName =>
        if branchMatch db.name baseName (cleanupSuffix branchFilter) then
          some ⟨db.name, db.uuid⟩
        else none
    r2 := allBuckets.flatMap fun bucket =>
      (bindings.r2.map fun b => b.name).filterMap fun baseName =>
        if branchMatch bucket.name baseName (cleanupSuffix branchFilter) then
          some ⟨bucket.name⟩
        else none
    kv := allNamespaces.flatMap fun ns =>
      (bindings.kv.map fun b => b.id).filterMap fun baseId =>
        if branchMatch ns.title baseId (cleanupSuffix branchFilter) then
          some ⟨ns.id, ns.title⟩
        else none }

theorem startsWithS_append (p r : String) : startsWithS (p ++ r) p = true := by
  unfold startsWithS
  rw [String.data_append]
  exact List.isPrefixOf_iff_prefix.mpr (List.prefix_append _ _)

theorem branchMatch_none_iff (n base : String) :
    branchMatch n base none = true ↔ n ≠ base ∧ startsWithS n (base ++ "-") = true := by
  unfold branchMatch
  by_cases h1 : n = base
  · subst h1
    simp
  · by_cases h2 : startsWithS n (base ++ "-") = true
    · simp [h1, h2]
    · simp [h1, h2]

theorem branchMatch_some_iff (n base s : String) :
    branchMatch n base (some s) = true ↔
      n ≠ base ∧ startsWithS n (base ++ "-") = true ∧ n = base ++ s := by
  unfold branchMatch
  by_cases h1 : n = base
  · subst h1
    simp
  · by_cases h2 : startsWithS n (base ++ "-") = true
    · simp [h1, h2]
    · simp [h1, h2]

theorem branchMatch_filter_iff (n base : String) (filter : Option String) :
    branchMatch n base (cleanupSuffix filter) = true ↔
      n ≠ base ∧ startsWithS n (base ++ "-") = true ∧
        ∀ f, filter = some f → f.isEmpty = false →
          n = base ++ "-" ++ sanitizeBranchName f := by
  cases filter with
  | none =>
    rw [show cleanupSuffix none = none from rfl, branchMatch_none_iff]
    constructor
    · rintro ⟨ha, hb⟩
      exact ⟨ha, hb, by rintro f hf; cases hf⟩
    · rintro ⟨ha, hb, -⟩
      exact ⟨ha, hb⟩
  | some f =>
    by_cases hfe : f.isEmpty
    · rw [show cleanupSuffix (some f) = none from by simp [cleanupSuffix, hfe],
        branchMatch_none_iff]
      constructor
      · rintro ⟨ha, hb⟩
        refine ⟨ha, hb, ?_⟩
        rintro g hg hge
        cases hg
        rw [hfe] at hge
        cases hge
      · rintro ⟨ha, hb, -⟩
        exact ⟨ha, hb⟩
    · have hfe' : f.isEmpty = false := by
        rw [Bool.eq_false_iff]
        exact hfe
      rw [show cleanupSuffix (some f) = some ("-" ++ sanitizeBranchName f) from by
        simp [cleanupSuffix, hfe'], branchMatch_some_iff]
      constructor
      · rintro ⟨ha, hb, hc⟩
        refine ⟨ha, hb, ?_⟩
        rintro g hg -
        cases hg
        rw [hc, String.append_assoc]
      · rintro ⟨ha, hb, hc⟩
        refine ⟨ha, hb, ?_⟩
        rw [hc f rfl hfe', String.append_assoc]

/-- C4 counterexample: with the branch filter given as the empty
string, the remote database `b-x` is selected although it is not equal
to `b` ++ `-` ++ sanitize(empty filter) = `b-`: JavaScript's truthiness
test makes an empty filter string behave as no filter at all. -/
theorem cleanup_empty_filter_counterexample :
    (findBranchResources ⟨[⟨"DB", "b"⟩], [], []⟩ (some "") [⟨"b-x", "u"⟩] [] []).d1 =
      [⟨"b-x", "u"⟩] ∧
    "b-x" ≠ "b" ++ "-" ++ sanitizeBranchName "" := by
  exact ⟨by decide, by decide⟩

/-- C4 (amended): a remote resource is selected for a declared base
exactly when its name starts with the base plus a hyphen, differs from
the base, and — when a NON-EMPTY branch filter is given — equals
base ++ `-` ++ sanitize(filter); an empty filter string behaves as no
filter.  On the spec's example listing the matches are exactly the two
suffixed variants with no filter, and only `my-app-db-foo` with filter
`foo`. -/
theorem cleanup_selection (bindings : CleanupBindings) (filter : Option String)
    (dbs : List D1Entry) (buckets : List R2Entry) (nss : List KVEntry) (t : D1Target) :
    (t ∈ (findBranchResources bindings filter dbs buckets nss).d1 ↔
      ∃ db ∈ dbs, ∃ b ∈ bindings.d1, t = ⟨db.name, db.uuid⟩ ∧
        db.name ≠ b.name ∧ startsWithS db.name (b.name ++ "-") = true ∧
        ∀ f, filter = some f → f.isEmpty = false →
          db.name = b.name ++ "-" ++ sanitizeBranchName f) ∧
    (findBranchResources ⟨[⟨"DB", "my-app-db"⟩], [], []⟩ none
      [⟨"my-app-db", "u0"⟩, ⟨"my-app-db-foo", "u1"⟩, ⟨"my-app-db-foobar-x", "u2"⟩]
      [] []).d1 =
      [⟨"my-app-db-foo", "u1"⟩, ⟨"my-app-db-foobar-x", "u2"⟩] ∧
    (findBranchResources ⟨[⟨"DB", "my-app-db"⟩], [], []⟩ (some "foo")
      [⟨"my-app-db", "u0"⟩, ⟨"my-app-db-foo", "u1"⟩, ⟨"my-app-db-foobar-x", "u2"⟩]
      [] []).d1 =
      [⟨"my-app-db-foo", "u1"⟩] := by
  refine ⟨?_, by decide, by decide⟩
  unfold findBranchResources
  simp only [List.mem_flatMap, List.mem_filterMap, List.mem_map]
  constructor
  · rintro ⟨db, hdb, base, ⟨b, hb, rfl⟩, hif⟩
    have hsplit : branchMatch db.name b.name (cleanupSuffix filter) = true ∧
        D1Target.mk db.name db.uuid = t := by
      by_cases hc : branchMatch db.name b.name (cleanupSuffix filter) = true
      · rw [if_pos hc] at hif
        exact ⟨hc, by simpa using hif⟩
      · rw [if_neg hc] at hif
        cases hif
    obtain ⟨hc, rfl⟩ := hsplit
    obtain ⟨ha, hs, hf⟩ := (branchMatch_filter_iff _ _ _).mp hc
    exact ⟨db, hdb, b, hb, rfl, ha, hs, hf⟩
  · rintro ⟨db, hdb, b, hb, rfl, ha, hs, hf⟩
    refine ⟨db, hdb, b.name, ⟨b, hb, rfl⟩, ?_⟩
    rw [if_pos ((branchMatch_filter_iff _ _ _).mpr ⟨ha, hs, hf⟩)]

/-- C10: with overlapping declared bases `base` and `base-t`, the
remote database named `base-t-x` appears twice in the deletion list —
once per matching base — so cleanup prompts for and attempts deletion
of that one resource twice. -/
theorem cleanup_overlapping_bases_duplicate (bind1 bind2 base t x u : String) :
    ((findBranchResources ⟨[⟨bind1, base⟩, ⟨bind2, base ++ "-" ++ t⟩], [], []⟩ none
        [⟨base ++ "-" ++ t ++ "-" ++ x, u⟩] [] []).d1).count
      ⟨base ++ "-" ++ t ++ "-" ++ x, u⟩ = 2 := by
  have hl : ("-" : String).length = 1 := rfl
  have hne1 : base ++ "-" ++ t ++ "-" ++ x ≠ base := by
    intro he
    have hlen := congrArg String.length he
    simp only [String.length_append, hl] at hlen
    omega
  have hne2 : base ++ "-" ++ t ++ "-" ++ x ≠ base ++ "-" ++ t := by
    intro he
    have hlen := congrArg String.length he
    simp only [String.length_append, hl] at hlen
    omega
  have hsw1 : startsWithS (base ++ "-" ++ t ++ "-" ++ x) (base ++ "-") = true := by
    have heq : base ++ "-" ++ t ++ "-" ++ x = (base ++ "-") ++ (t ++ ("-" ++ x)) := by
      simp [String.append_assoc]
    rw [heq]
    exact startsWithS_append _ _
  have hsw2 : startsWithS (base ++ "-" ++ t ++ "-" ++ x) ((base ++ "-" ++ t) ++ "-") = true :=
    startsWithS_append (base ++ "-" ++ t ++ "-") x
  have hm1 : branchMatch (base ++ "-" ++ t ++ "-" ++ x) base (cleanupSuffix none) = true :=
    (branchMatch_none_iff _ _).mpr ⟨hne1, hsw1⟩
  have hm2 : branchMatch (base ++ "-" ++ t ++ "-" ++ x) (base ++ "-" ++ t)
      (cleanupSuffix none) = true :=
    (branchMatch_none_iff _ _).mpr ⟨hne2, hsw2⟩
  unfold findBranchResources
  simp [hm1, hm2, List.count_cons]

/-- A provisioned D1 row the publish step consumes (`binding`, `id`). -/
structure PubD1 where
  binding : String
  id : String

/-- A provisioned R2 row the publish step consumes. -/
structure PubR2 where
  binding : String
  name : String

/-- A provisioned KV row the publish step consumes. -/
structure PubKV where
  binding : String
  id : String

/-- The per-kind provisioned rows handed to `patchPreviewBindings`. -/
structure ApiBindings where
  d1 : List PubD1
  r2 : List PubR2
  kv : List PubKV

/-- JavaScript object property assignment `obj[k] = v` on an ordered
association list: an existing key keeps its position and receives the
new value, a new key is appended. -/
def objInsert (m : List (String × String)) (k v : String) : List (String × String) :=
  match m with
  | [] => [(k, v)]
  | (k0, v0) :: rest => if k0 = k then (k, v) :: rest else (k0, v0) :: objInsert rest k v

/-- One kind's binding-name-keyed mapping, built row by row. -/
def buildMap (pairs : List (String × String)) : List (String × String) :=
  pairs.foldl (fun m p => objInsert m p.1 p.2) []

/-- The `deployment_configs.preview` payload `patchPreviewBindings`
builds: exactly one mapping per kind, keyed by binding name; the value
is the identifier (D1 `id`, KV `namespace_id`) or the bucket name. -/
structure PreviewPayload where
  d1_databases : List (String × String)
  r2_buckets : List (String × String)
  kv_namespaces : List (String × String)

/-- Payload construction of `patchPreviewBindings` (src/lib/api-client.js). -/
def buildPreviewPayload (bs : ApiBindings) : PreviewPayload :=
  { d1_databases := buildMap (bs.d1.map fun b => (b.binding, b.id))
    r2_buckets := buildMap (bs.r2.map fun b => (b.binding, b.name))
    kv_namespaces := buildMap (bs.kv.map fun b => (b.binding, b.id)) }

/-- An HTTP response as `patchPreviewBindings` observes it. -/
structure HttpResponse where
  status : Nat
  statusText : String
  body : String

/-- JavaScript `response.ok`: the status is in the 2xx range. -/
def respOk (r : HttpResponse) : Bool :=
  decide (200 ≤ r.status ∧ r.status ≤ 299)

/-- What the failure path of `patchPreviewBindings` surfaces: the
message of the thrown `Error` and the stderr lines printed before the
throw and by the re-raising catch. -/
structure PublishFailure where
  message : String
  errorLogs : List String
deriving DecidableEq, Repr

/-- Embedding of `patchPreviewBindings` (src/lib/api-client.js): build
the payload, then on a non-2xx response fail with the status in the
thrown message and the response body verbatim among the stderr lines. -/
def patchPreviewBindings (bs : ApiBindings) (r : HttpResponse) :
    Except PublishFailure PreviewPayload :=
  if respOk r then .ok (buildPreviewPayload bs)
  else
    .error
      { message := "Cloudflare API error: " ++ toString r.status ++ " " ++ r.statusText
        errorLogs :=
          ["API request failed: " ++ toString r.status ++ " " ++ r.statusText,
           "Response body: " ++ r.body,
           "Failed to patch preview bindings: Cloudflare API error: " ++
             toString r.status ++ " " ++ r.statusText] }

theorem objInsert_mem_keys {m : List (String × String)} {k v q : String} :
    q ∈ (objInsert m k v).map Prod.fst ↔ q ∈ m.map Prod.fst ∨ q = k := by
  induction m with
  | nil => simp [objInsert]
  | cons p rest ih =>
    obtain ⟨k0, v0⟩ := p
    by_cases h : k0 = k
    · subst h
      simp [objInsert]
      tauto
    · simp [objInsert, h, ih]
      tauto

theorem objInsert_nodup {m : List (String × String)} (hm : (m.map Prod.fst).Nodup)
    (k v : String) : ((objInsert m k v).map Prod.fst).Nodup := by
  induction m with
  | nil => simp [objInsert]
  | cons p rest ih =>
    obtain ⟨k0, v0⟩ := p
    by_cases h : k0 = k
    · subst h
      simp only [objInsert, if_pos rfl]
      simpa using hm
    · simp only [objInsert, if_neg h, List.map_cons, List.nodup_cons] at hm ⊢
      refine ⟨?_, ih hm.2⟩
      intro hmem
      rw [objInsert_mem_keys] at hmem
      rcases hmem with hmem | rfl
      · exact hm.1 hmem
      · exact h rfl

theorem buildMap_nodup (pairs : List (String × String)) :
    ((buildMap pairs).map Prod.fst).Nodup := by
  suffices h : ∀ m : List (String × String), (m.map Prod.fst).Nodup →
      ((pairs.foldl (fun m p => objInsert m p.1 p.2) m).map Prod.fst).Nodup by
    exact h [] (by simp)
  induction pairs with
  | nil =>
    intro m hm
    simpa using hm
  | cons p rest ih =>
    intro m hm
    simp only [List.foldl_cons]
    exact ih _ (objInsert_nodup hm p.1 p.2)

/-- C7: the payload holds exactly one binding-name-keyed mapping per
kind with no duplicate binding names, and a non-2xx response makes
publish fail with the HTTP status (and status text) in the thrown
message and the response body, verbatim, among the surfaced error
lines. -/
theorem publish_payload_and_failure (bs : ApiBindings) (r : HttpResponse)
    (h : respOk r = false) :
    ((buildPreviewPayload bs).d1_databases.map Prod.fst).Nodup ∧
    ((buildPreviewPayload bs).r2_buckets.map Prod.fst).Nodup ∧
    ((buildPreviewPayload bs).kv_namespaces.map Prod.fst).Nodup ∧
    ∃ f, patchPreviewBindings bs r = .error f ∧
      f.message = "Cloudflare API error: " ++ toString r.status ++ " " ++ r.statusText ∧
      ("Response body: " ++ r.body) ∈ f.errorLogs := by
  refine ⟨buildMap_nodup _, buildMap_nodup _, buildMap_nodup _, ?_⟩
  have herr : patchPreviewBindings bs r = .error
      ⟨"Cloudflare API error: " ++ toString r.status ++ " " ++ r.statusText,
       ["API request failed: " ++ toString r.status ++ " " ++ r.statusText,
        "Response body: " ++ r.body,
        "Failed to patch preview bindings: Cloudflare API error: " ++
          toString r.status ++ " " ++ r.statusText]⟩ := by
    unfold patchPreviewBindings
    rw [if_neg (by simp [h])]
  exact ⟨_, herr, rfl, by simp⟩

/-- C7 witness: a concrete 500 response with one declared D1 binding. -/
theorem publish_payload_and_failure_witness :
    respOk ⟨500, "Server Error", "boom"⟩ = false ∧
    (((buildPreviewPayload ⟨[⟨"DB", "id1"⟩], [], []⟩).d1_databases.map Prod.fst).Nodup ∧
     ((buildPreviewPayload ⟨[⟨"DB", "id1"⟩], [], []⟩).r2_buckets.map Prod.fst).Nodup ∧
     ((buildPreviewPayload ⟨[⟨"DB", "id1"⟩], [], []⟩).kv_namespaces.map Prod.fst).Nodup ∧
     ∃ f, patchPreviewBindings ⟨[⟨"DB", "id1"⟩], [], []⟩ ⟨500, "Server Error", "boom"⟩ =
        .error f ∧
      f.message = "Cloudflare API error: " ++ toString (500 : Nat) ++ " " ++ "Server Error" ∧
      ("Response body: " ++ "boom") ∈ f.errorLogs) :=
  ⟨by decide, publish_payload_and_failure ⟨[⟨"DB", "id1"⟩], [], []⟩
    ⟨500, "Server Error", "boom"⟩ (by decide)⟩

/-- The environment variables the tool reads; `none` is an unset
variable.  The `!process.env[v]` test also treats `""` as missing. -/
structure Env where
  cloudflareApiToken : Option String
  cloudflareAccountId : Option String
  cfPagesProjectName : Option String
  cfPagesBranch : Option String
  cfPagesProductionBranch : Option String

/-- JavaScript falsiness of an environment variable lookup. -/
def envFalsy : Option String → Bool
  | none => true
  | some s => s.isEmpty

/-- Lookup by variable name, as `process.env[envVar]` does. -/
def envGet (e : Env) : String → Option String
  | "CLOUDFLARE_API_TOKEN" => e.cloudflareApiToken
  | "CLOUDFLARE_ACCOUNT_ID" => e.cloudflareAccountId
  | "CF_PAGES_PROJECT_NAME" => e.cfPagesProjectName
  | "CF_PAGES_BRANCH" => e.cfPagesBranch
  | "CF_PAGES_PRODUCTION_BRANCH" => e.cfPagesProductionBranch
  | _ => none

/-- The required-variable list of the token-only config variant (the
one whose optional account and project the orchestrator derives). -/
def REQUIRED_ENV_VARS : List String :=
  ["CLOUDFLARE_API_TOKEN"]

/-- The required-variable list of src/lib/config.js, the four-variable
config variant also present in the repository. -/
def REQUIRED_ENV_VARS_static : List String :=
  ["CLOUDFLARE_API_TOKEN", "CLOUDFLARE_ACCOUNT_ID", "CF_PAGES_PROJECT_NAME",
   "CF_PAGES_BRANCH"]

/-- Embedding of `validateEnv`, generic in the required list: collect
the missing variables and fail when any is missing. -/
def validateEnvWith (req : List String) (e : Env) : Except String Unit :=
  match req.filter (fun v => envFalsy (envGet e v)) with
  | [] => .ok ()
  | missing =>
    .error ("Missing required environment variables: " ++ String.intercalate ", " missing)

/-- Embedding of `validateEnv` of the token-only config variant. -/
def validateEnv (e : Env) : Except String Unit :=
  validateEnvWith REQUIRED_ENV_VARS e

/-- Embedding of `validateEnv` of src/lib/config.js. -/
def validateEnvStatic (e : Env) : Except String Unit :=
  validateEnvWith REQUIRED_ENV_VARS_static e

/-- The configuration record `getEnv` returns (token-only variant):
account, project and branch pass through unvalidated. -/
structure Config where
  apiToken : String
  accountId : Option String
  projectName : Option String
  branch : Option String
  productionBranch : String
deriving DecidableEq, Repr

/-- Embedding of `getEnv` of the token-only config variant: validates,
trims the token, and defaults the production branch to `main` when the
override is unset or empty. -/
def getEnv (e : Env) : Except String Config :=
  match validateEnv e with
  | .error msg => .error msg
  | .ok _ =>
    .ok { apiToken := ((e.cloudflareApiToken).getD "").trim
          accountId := e.cloudflareAccountId
          projectName := e.cfPagesProjectName
          branch := e.cfPagesBranch
          productionBranch :=
            match e.cfPagesProductionBranch with
            | some s => if s.isEmpty then "main" else s
            | none => "main" }

theorem validateEnvWith_mem_missing {req : List String} {e : Env} (v : String)
    (hv : v ∈ req) (hf : envFalsy (envGet e v) = true) :
    validateEnvWith req e ≠ .ok () := by
  intro hok
  have hmem : v ∈ req.filter (fun v => envFalsy (envGet e v)) :=
    List.mem_filter.mpr ⟨hv, hf⟩
  unfold validateEnvWith at hok
  cases hfil : req.filter (fun v => envFalsy (envGet e v)) with
  | nil => rw [hfil] at hmem; cases hmem
  | cons a l => rw [hfil] at hok; cases hok

/-- C8 counterexample: with the bearer credential set and the branch
identifier missing, environment validation reports no error at all —
although the claim requires a fatal configuration error exactly when
the credential or the branch identifier is missing. -/
theorem validateEnv_missing_branch_counterexample :
    envFalsy (Env.cfPagesBranch ⟨some "tok", none, none, none, none⟩) = true ∧
    validateEnv ⟨some "tok", none, none, none, none⟩ = .ok () := by
  exact ⟨rfl, rfl⟩

/-- C8 (amended): in the token-only config variant the orchestrator
uses, validation fails exactly when the bearer credential is missing
(unset or empty); the branch, project and account identifiers are not
checked and pass through unvalidated, and the production-branch
override defaults to `main` when unset or empty.  In the four-variable
config variant of src/lib/config.js, a missing account identifier is
also fatal (as are missing project and branch). -/
theorem validateEnv_characterization (e : Env) :
    (validateEnv e = .ok () ↔ envFalsy e.cloudflareApiToken = false) ∧
    (envFalsy e.cloudflareApiToken = false →
      ∃ cfg, getEnv e = .ok cfg ∧
        cfg.accountId = e.cloudflareAccountId ∧
        cfg.projectName = e.cfPagesProjectName ∧
        cfg.branch = e.cfPagesBranch ∧
        (envFalsy e.cfPagesProductionBranch = true → cfg.productionBranch = "main")) ∧
    (envFalsy e.cloudflareAccountId = true → validateEnvStatic e ≠ .ok ()) := by
  have hfil : envFalsy e.cloudflareApiToken = false →
      List.filter (fun v => envFalsy (envGet e v)) ["CLOUDFLARE_API_TOKEN"] = [] := by
    intro hf
    simp only [List.filter_cons, List.filter_nil]
    have hg : envFalsy (envGet e "CLOUDFLARE_API_TOKEN") = false := hf
    rw [hg]
    simp
  refine ⟨?_, ?_, ?_⟩
  · constructor
    · intro hok
      by_contra hne
      have ht : envFalsy e.cloudflareApiToken = true := by
        cases h : envFalsy e.cloudflareApiToken
        · exact absurd h hne
        · rfl
      exact validateEnvWith_mem_missing "CLOUDFLARE_API_TOKEN" (by decide) ht hok
    · intro hf
      unfold validateEnv validateEnvWith REQUIRED_ENV_VARS
      rw [hfil hf]
  · intro hf
    unfold getEnv validateEnv validateEnvWith REQUIRED_ENV_VARS
    rw [hfil hf]
    refine ⟨_, rfl, rfl, rfl, rfl, ?_⟩
    intro hp
    cases hb : e.cfPagesProductionBranch with
    | none => rfl
    | some p =>
      rw [hb] at hp
      simp only [envFalsy] at hp
      show (if p.isEmpty = true then "main" else p) = "main"
      rw [if_pos hp]
  · intro ha
    show validateEnvWith REQUIRED_ENV_VARS_static e ≠ Except.ok ()
    exact validateEnvWith_mem_missing "CLOUDFLARE_ACCOUNT_ID" (by decide) ha

end CFBW
